import Mathlib

/-!
# Verification of the realtor-assistant valuation and preference core

A shallow embedding in Lean 4 of the CMA (comparative market analysis)
valuation engine (`src/core/cma/engine.py`), the preference-matching
vectorizer and learner (`src/core/matching/preferences.py`), and the
comparable-selection distance gate (`src/apps/workers/tasks.py`),
together with theorems settling the specification claims about them.

Modelling conventions:
* Python `float` arithmetic is modelled over `ℚ` (exact rationals);
  `int` money amounts are `ℤ`.  Timestamps are integer seconds.
* Nullable columns (`Optional[...]`) become `Option`; Python truthiness
  (`if x:`, `x or y`) is modelled explicitly: `None`, `0`, `0.0`, `""`,
  empty containers are falsy.
* Free-form JSON values (amenities, condition notes, persisted
  preference state) are modelled by the inductive `PyVal`.
* Functions that can raise return `Except`; an uncaught Python
  exception is an `Except.error`.
-/

set_option allowUnsafeReducibility true in
attribute [semireducible] Rat.add Rat.mul Rat.inv Rat.sub Rat.ofScientific

namespace RealtorAssistant

/-- A JSON-ish Python value, as stored in the JSON columns
(`amenities`, `condition_notes`, `preference_vector`, client `prefs`).
Object keys are strings, as JSON guarantees. -/
inductive PyVal where
  | null : PyVal
  | bool : Bool → PyVal
  | num : ℚ → PyVal
  | str : String → PyVal
  | arr : List PyVal → PyVal
  | obj : List (String × PyVal) → PyVal
deriving BEq, Repr

mutual

/-- Decidable equality for `PyVal` (the nested inductive defeats the
derive handler, so it is spelled out). -/
def PyVal.decEq : (a b : PyVal) → Decidable (a = b)
  | .null, .null => .isTrue rfl
  | .bool x, .bool y =>
      if h : x = y then .isTrue (by rw [h]) else .isFalse (by intro he; cases he; exact h rfl)
  | .num x, .num y =>
      if h : x = y then .isTrue (by rw [h]) else .isFalse (by intro he; cases he; exact h rfl)
  | .str x, .str y =>
      if h : x = y then .isTrue (by rw [h]) else .isFalse (by intro he; cases he; exact h rfl)
  | .arr x, .arr y =>
      match PyVal.decEqList x y with
      | .isTrue h => .isTrue (by rw [h])
      | .isFalse h => .isFalse (by intro he; cases he; exact h rfl)
  | .obj x, .obj y =>
      match PyVal.decEqObj x y with
      | .isTrue h => .isTrue (by rw [h])
      | .isFalse h => .isFalse (by intro he; cases he; exact h rfl)
  | .null, .bool _ => .isFalse (fun h => nomatch h)
  | .null, .num _ => .isFalse (fun h => nomatch h)
  | .null, .str _ => .isFalse (fun h => nomatch h)
  | .null, .arr _ => .isFalse (fun h => nomatch h)
  | .null, .obj _ => .isFalse (fun h => nomatch h)
  | .bool _, .null => .isFalse (fun h => nomatch h)
  | .bool _, .num _ => .isFalse (fun h => nomatch h)
  | .bool _, .str _ => .isFalse (fun h => nomatch h)
  | .bool _, .arr _ => .isFalse (fun h => nomatch h)
  | .bool _, .obj _ => .isFalse (fun h => nomatch h)
  | .num _, .null => .isFalse (fun h => nomatch h)
  | .num _, .bool _ => .isFalse (fun h => nomatch h)
  | .num _, .str _ => .isFalse (fun h => nomatch h)
  | .num _, .arr _ => .isFalse (fun h => nomatch h)
  | .num _, .obj _ => .isFalse (fun h => nomatch h)
  | .str _, .null => .isFalse (fun h => nomatch h)
  | .str _, .bool _ => .isFalse (fun h => nomatch h)
  | .str _, .num _ => .isFalse (fun h => nomatch h)
  | .str _, .arr _ => .isFalse (fun h => nomatch h)
  | .str _, .obj _ => .isFalse (fun h => nomatch h)
  | .arr _, .null => .isFalse (fun h => nomatch h)
  | .arr _, .bool _ => .isFalse (fun h => nomatch h)
  | .arr _, .num _ => .isFalse (fun h => nomatch h)
  | .arr _, .str _ => .isFalse (fun h => nomatch h)
  | .arr _, .obj _ => .isFalse (fun h => nomatch h)
  | .obj _, .null => .isFalse (fun h => nomatch h)
  | .obj _, .bool _ => .isFalse (fun h => nomatch h)
  | .obj _, .num _ => .isFalse (fun h => nomatch h)
  | .obj _, .str _ => .isFalse (fun h => nomatch h)
  | .obj _, .arr _ => .isFalse (fun h => nomatch h)

/-- Decidable equality on lists of `PyVal`. -/
def PyVal.decEqList : (a b : List PyVal) → Decidable (a = b)
  | [], [] => .isTrue rfl
  | [], _ :: _ => .isFalse (fun h => nomatch h)
  | _ :: _, [] => .isFalse (fun h => nomatch h)
  | x :: xs, y :: ys =>
      match PyVal.decEq x y with
      | .isFalse h1 => .isFalse (by intro he; injection he with h h'; exact h1 h)
      | .isTrue h1 =>
        match PyVal.decEqList xs ys with
        | .isTrue h2 => .isTrue (by rw [h1, h2])
        | .isFalse h2 => .isFalse (by intro he; injection he with h h'; exact h2 h')

/-- Decidable equality on string-keyed association lists of `PyVal`. -/
def PyVal.decEqObj : (a b : List (String × PyVal)) → Decidable (a = b)
  | [], [] => .isTrue rfl
  | [], _ :: _ => .isFalse (fun h => nomatch h)
  | _ :: _, [] => .isFalse (fun h => nomatch h)
  | (k, x) :: xs, (k', y) :: ys =>
      match String.decEq k k' with
      | .isFalse hk => .isFalse (by
          intro he; injection he with h h'
          exact hk (congrArg Prod.fst h))
      | .isTrue hk =>
        match PyVal.decEq x y with
        | .isFalse h1 => .isFalse (by
            intro he; injection he with h h'
            exact h1 (congrArg Prod.snd h))
        | .isTrue h1 =>
          match PyVal.decEqObj xs ys with
          | .isTrue h2 => .isTrue (by rw [hk, h1, h2])
          | .isFalse h2 => .isFalse (by intro he; injection he with h h'; exact h2 h')

end

instance : DecidableEq PyVal := PyVal.decEq

deriving instance DecidableEq for Except

/-- Python truthiness of a `PyVal`: `None`, `False`, `0`, `""`, `[]`,
`{}` are falsy. -/
def PyVal.truthy : PyVal → Bool
  | .null => false
  | .bool b => b
  | .num q => q ≠ 0
  | .str s => s ≠ ""
  | .arr l => ¬ l.isEmpty
  | .obj l => ¬ l.isEmpty

/-- Python exception classes that the embedded code can raise. -/
inductive PyErr where
  | valueError : PyErr
  | typeError : PyErr
  | attributeError : PyErr
deriving DecidableEq, Repr

/-- `d.get(k)` on a Python dict: the stored value, or `None`. -/
def dictGet (m : List (String × PyVal)) (k : String) : PyVal :=
  match m.find? (fun p => p.1 = k) with
  | some p => p.2
  | none => .null

/-- `d.get(k, default)` on a Python dict. -/
def dictGetD (m : List (String × PyVal)) (k : String) (d : PyVal) : PyVal :=
  match m.find? (fun p => p.1 = k) with
  | some p => p.2
  | none => d

/-- Truthiness of an optional integer (Python `Optional[int]`):
`None` and `0` are falsy. -/
def truthyZ : Option ℤ → Bool
  | some x => x ≠ 0
  | none => false

/-- Truthiness of an optional rational (Python `Optional[float]`). -/
def truthyQ : Option ℚ → Bool
  | some x => x ≠ 0
  | none => false

/-- Python `a or b` on optional integers (used for
`close_price_cents or list_price_cents` and the like). -/
def pyOrZ (a b : Option ℤ) : Option ℤ :=
  if truthyZ a then a else b

/-- Python `a or b` on optional rationals. -/
def pyOrQ (a b : Option ℚ) : Option ℚ :=
  if truthyQ a then a else b

/-- Python `int(x)` on a float: truncation toward zero. -/
def pyInt (q : ℚ) : ℤ :=
  if q < 0 then ⌈q⌉ else ⌊q⌋

/-- Python `round(x)` to the nearest integer, halves to even
(banker's rounding), as used by `round(x, ndigits)` on exact values. -/
def pyRound0 (q : ℚ) : ℤ :=
  if q - ⌊q⌋ < 1/2 then ⌊q⌋
  else if q - ⌊q⌋ > 1/2 then ⌊q⌋ + 1
  else if 2 ∣ ⌊q⌋ then ⌊q⌋ else ⌊q⌋ + 1

/-- Python `round(x, n)` for `n` decimal digits. -/
def pyRound (q : ℚ) (n : ℕ) : ℚ :=
  (pyRound0 (q * (10 : ℚ) ^ n) : ℚ) / (10 : ℚ) ^ n

/-- Insert a rational into a sorted list (ascending). -/
def insertSorted (x : ℚ) : List ℚ → List ℚ
  | [] => [x]
  | y :: ys => if x ≤ y then x :: y :: ys else y :: insertSorted x ys

/-- Insertion sort on rationals, modelling the sort performed inside
Python's `statistics.median`. -/
def sortQ : List ℚ → List ℚ
  | [] => []
  | x :: xs => insertSorted x (sortQ xs)

/-- `statistics.median` on a nonempty list: the middle element of the
sorted data for odd length, the mean of the two middle elements for
even length.  (The source never calls it on an empty list; the `0`
default is unreachable there.) -/
def median (l : List ℚ) : ℚ :=
  if (sortQ l).length % 2 = 1 then (sortQ l).getD ((sortQ l).length / 2) 0
  else ((sortQ l).getD ((sortQ l).length / 2 - 1) 0
    + (sortQ l).getD ((sortQ l).length / 2) 0) / 2

/-- `statistics.mean` on a nonempty list. -/
def mean (l : List ℚ) : ℚ := l.sum / l.length

/-- The settings fields consumed by the embedded core, with the
defaults of `core/config.py`. -/
structure Settings where
  dealDiscountThreshold : ℚ
  cmaRadiusMiles : ℚ
  cmaDaysBack : ℤ
  preferenceDecayDays : ℤ
  preferenceLearningRate : ℚ
deriving DecidableEq, Repr

/-- `get_settings()` defaults: threshold 0.8, radius 1.0 mile,
180 days back, 45-day decay window, learning rate 0.25. -/
def defaultSettings : Settings :=
  { dealDiscountThreshold := 4/5
    cmaRadiusMiles := 1
    cmaDaysBack := 180
    preferenceDecayDays := 45
    preferenceLearningRate := 1/4 }

/-- The `Listing` ORM row fields read by the embedded core
(`core/storage/models.py`). -/
structure Listing where
  id : String
  listPriceCents : Option ℤ
  closePriceCents : Option ℤ
  marketEstimateCents : Option ℤ
  beds : Option ℚ
  baths : Option ℚ
  sqft : Option ℤ
  lotSqft : Option ℤ
  yearBuilt : Option ℤ
  parkingSpaces : Option ℤ
  hoaFeeCents : Option ℤ
  daysOnMarket : Option ℤ
  amenities : List (String × PyVal)
  features : List String
  conditionNotes : List (String × PyVal)
  latitude : Option ℚ
  longitude : Option ℚ
  offMarketAt : Option ℤ
  sourceUpdatedAt : Option ℤ
  updatedAt : Option ℤ
deriving DecidableEq, Repr

/-- A listing with every nullable field absent and empty containers;
concrete test listings are built by updating it. -/
def blankListing : Listing :=
  { id := ""
    listPriceCents := none
    closePriceCents := none
    marketEstimateCents := none
    beds := none
    baths := none
    sqft := none
    lotSqft := none
    yearBuilt := none
    parkingSpaces := none
    hoaFeeCents := none
    daysOnMarket := none
    amenities := []
    features := []
    conditionNotes := []
    latitude := none
    longitude := none
    offMarketAt := none
    sourceUpdatedAt := none
    updatedAt := none }

/-! ## CMA engine (`src/core/cma/engine.py`) -/

/-- `price_per_sqft_cents`: price (close, else list) divided by square
footage; `None` when `sqft` is missing/non-positive or no price is set.
(`listing.sqft or 0` equals `Option.getD 0` on numbers: `None` and `0`
both give `0`.) -/
def pricePerSqftCents (listing : Listing) : Option ℚ :=
  let sqft := listing.sqft.getD 0
  if sqft ≤ 0 then none
  else
    let price := pyOrZ listing.closePriceCents listing.listPriceCents
    if truthyZ price then some ((price.getD 0 : ℚ) / (sqft : ℚ)) else none

/-- Truthiness of the subject/comp "has a pool" expression:
`(x.amenities or {}).get("pool") or (x.features and "pool" in x.features)`. -/
def hasPool (x : Listing) : Bool :=
  (dictGet x.amenities "pool").truthy
    || (!x.features.isEmpty && x.features.contains "pool")

/-- `_adjust_price`: raises when the comparable has neither close nor
list price; otherwise applies the conditional additive adjustments and
clamps the result at 0.  The Python loop accumulates
`price_cents += adjustments[k]` as each entry is stored; since every
entry is added exactly once, the final price equals the base price plus
the sum of the recorded adjustment values, which is how it is written
here (the adjustment list keeps the source's insertion order). -/
def adjustPrice (subject comp : Listing) (baselinePsf : ℚ) :
    Except String (ℤ × List (String × ℤ)) :=
  let basePrice := pyOrZ comp.closePriceCents comp.listPriceCents
  if truthyZ basePrice then
    let base := basePrice.getD 0
    let bedDelta : ℚ := subject.beds.getD 0 - comp.beds.getD 0
    let bedAdj : List (String × ℤ) :=
      if bedDelta ≠ 0 then [("bedrooms", pyInt (bedDelta * 1200000))] else []
    let bathDelta : ℚ := subject.baths.getD 0 - comp.baths.getD 0
    let bathAdj : List (String × ℤ) :=
      if bathDelta ≠ 0 then [("bathrooms", pyInt (bathDelta * 800000))] else []
    let areaAdj : List (String × ℤ) :=
      if truthyZ subject.sqft ∧ truthyZ comp.sqft then
        [("living_area",
          pyInt (((subject.sqft.getD 0 - comp.sqft.getD 0 : ℤ) : ℚ) * baselinePsf))]
      else []
    let lotAdj : List (String × ℤ) :=
      if truthyZ subject.lotSqft ∧ truthyZ comp.lotSqft then
        [("lot_size",
          pyInt (((subject.lotSqft.getD 0 - comp.lotSqft.getD 0 : ℤ) : ℚ)
            * (baselinePsf * (3/20))))]
      else []
    let garageAdj : List (String × ℤ) :=
      if truthyZ subject.parkingSpaces ∧ ¬ truthyZ comp.parkingSpaces then
        [("garage", 800000)]
      else if truthyZ comp.parkingSpaces ∧ ¬ truthyZ subject.parkingSpaces then
        [("garage", -800000)]
      else []
    let poolAdj : List (String × ℤ) :=
      if hasPool subject ∧ ¬ hasPool comp then [("pool", 2000000)]
      else if hasPool comp ∧ ¬ hasPool subject then [("pool", -2000000)]
      else []
    let yearAdj : List (String × ℤ) :=
      if truthyZ subject.yearBuilt ∧ truthyZ comp.yearBuilt then
        [("year_built", (subject.yearBuilt.getD 0 - comp.yearBuilt.getD 0) * 100000)]
      else []
    let adjustments := bedAdj ++ bathAdj ++ areaAdj ++ lotAdj ++ garageAdj ++ poolAdj ++ yearAdj
    .ok (max (base + (adjustments.map Prod.snd).sum) 0, adjustments)
  else .error "Comparable listing is missing price information"

/-- The rational images of the integer adjusted prices, as fed to
`statistics.median` by `_confidence_from_prices`. -/
def cmaPrices (adjustedPrices : List ℤ) : List ℚ :=
  adjustedPrices.map (fun (p : ℤ) => (p : ℚ))

/-- `variability = mad / median if median else 0` of
`_confidence_from_prices`. -/
def confVariability (prices : List ℚ) : ℚ :=
  if median prices ≠ 0 then
    median (prices.map (fun p => |p - median prices|)) / median prices
  else 0

/-- `max(0.2, min(0.95, x))` of `_confidence_from_prices`. -/
def clampConf (x : ℚ) : ℚ := max (1/5) (min (19/20) x)

/-- `max(0.8, min(1.0, x))` of `_confidence_from_prices`. -/
def clampRecent (x : ℚ) : ℚ := max (4/5) (min 1 x)

/-- The recency factor of `_confidence_from_prices`: 1.0 for an empty
comparable list, else the clamped mean of `max(1, days_on_market or 1)`
over 180. -/
def confRecentFactor (comps : List Listing) : ℚ :=
  if comps.isEmpty then 1
  else clampRecent (mean (comps.map
    (fun c => (max 1 ((pyOrZ c.daysOnMarket (some 1)).getD 1) : ℚ))) / 180)

/-- `_confidence_from_prices`: MAD-based variability, pool-size factor,
clamp to `[0.2, 0.95]`, scaled by a recency factor in `[0.8, 1]` and
rounded to 2 decimals. -/
def confidenceFromPrices (adjustedPrices : List ℤ) (comps : List Listing) : ℚ :=
  if adjustedPrices.isEmpty then 0
  else if median (cmaPrices adjustedPrices) ≤ 0 then 0
  else pyRound
    (clampConf (min 1 ((adjustedPrices.length : ℚ) / 6)
        * (1 - confVariability (cmaPrices adjustedPrices)))
      * confRecentFactor comps) 2

/-- The `DealAlertPayload` fields; the rationale f-string is modelled
by the rounded percentage number interpolated into it. -/
structure DealAlertPayload where
  listingId : String
  sourceReportId : String
  marketValueCents : ℤ
  listPriceCents : ℤ
  discountRatio : ℚ
  rationalePctBelow : ℚ
  excludedDefects : List String
deriving DecidableEq, Repr

/-- The three disqualifying condition-note keys checked by `_detect_deal`. -/
def dealConditionKeys : List String := ["mechanical", "electrical", "structural"]

/-- `_detect_deal`: no alert when the list price is missing/zero or the
median is non-positive, when the discount ratio exceeds the threshold,
or when any disqualifying condition note is truthy. -/
def detectDeal (S : Settings) (subject : Listing) (priceMidCents : ℤ) :
    Option DealAlertPayload :=
  if ¬ truthyZ subject.listPriceCents ∨ priceMidCents ≤ 0 then none
  else
    let lp := subject.listPriceCents.getD 0
    let ratio : ℚ := (lp : ℚ) / (priceMidCents : ℚ)
    if ratio > S.dealDiscountThreshold then none
    else if dealConditionKeys.any (fun k => (dictGet subject.conditionNotes k).truthy) then none
    else
      some { listingId := subject.id
             sourceReportId := subject.id
             marketValueCents := priceMidCents
             listPriceCents := lp
             discountRatio := pyRound ratio 4
             rationalePctBelow := pyRound ((1 - ratio) * 100) 1
             excludedDefects := [] }

/-- `ratio_diff` inside `_compute_similarity`: 0 when either value is
falsy, else the absolute difference over the larger value. -/
def ratioDiff (a b : Option ℚ) : ℚ :=
  if truthyQ a && truthyQ b then
    let x := a.getD 0
    let y := b.getD 0
    |x - y| / max x y
  else 0

/-- `_compute_similarity`: weighted composite of attribute closeness,
distance fixed at 1.0, clamped to `[0, 1]`. -/
def computeSimilarity (subject comp : Listing) : ℚ :=
  let bedScore := 1 - ratioDiff subject.beds comp.beds
  let bathScore := 1 - ratioDiff subject.baths comp.baths
  let sqftScore := 1 - ratioDiff (subject.sqft.map (fun (z : ℤ) => (z : ℚ))) (comp.sqft.map (fun (z : ℤ) => (z : ℚ)))
  let lotScore := 1 - ratioDiff (subject.lotSqft.map (fun (z : ℤ) => (z : ℚ))) (comp.lotSqft.map (fun (z : ℤ) => (z : ℚ)))
  let yearScore := 1 - ratioDiff (subject.yearBuilt.map (fun (z : ℤ) => (z : ℚ))) (comp.yearBuilt.map (fun (z : ℤ) => (z : ℚ)))
  let distanceScore : ℚ := 1
  let composite := bedScore * (1/5) + bathScore * (1/5) + sqftScore * (1/4)
    + lotScore * (1/10) + yearScore * (1/10) + distanceScore * (3/20)
  max 0 (min 1 composite)

/-- One `CMAComp` row of the valuation result. -/
structure CMAComp where
  listingId : String
  rawPriceCents : ℤ
  adjustedPriceCents : ℤ
  adjustments : List (String × ℤ)
  distanceMiles : ℚ
  daysBack : ℤ
  psf : Option ℚ
  similarityScore : ℚ
deriving DecidableEq, Repr

/-- The `CMAResult` record; the psf chart rows are (listing id,
rounded price per square foot). -/
structure CMAResult where
  priceLowCents : ℤ
  priceMidCents : ℤ
  priceHighCents : ℤ
  confidence : ℚ
  comps : List CMAComp
  psfChart : List (String × ℚ)
  dealAlert : Option DealAlertPayload
deriving DecidableEq, Repr

/-- The baseline price per square foot of `compute_cma`: mean of the
comparables' truthy psf values, else the subject's own list price per
square foot when both are truthy, else 0. -/
def cmaBaselinePsf (subject : Listing) (entries : List (Listing × ℚ × ℤ)) : ℚ :=
  let psfValues := entries.filterMap (fun e =>
    match pricePerSqftCents e.1 with
    | some v => if v ≠ 0 then some v else none
    | none => none)
  if ¬ psfValues.isEmpty then mean psfValues
  else if truthyZ subject.sqft ∧ truthyZ subject.listPriceCents then
    (subject.listPriceCents.getD 0 : ℚ) / (subject.sqft.getD 0 : ℚ)
  else 0

/-- One iteration of the comparable loop of `compute_cma`: `None` when
`_adjust_price` raises (the caught `ValueError`, i.e. no price), else
the built `CMAComp` row. -/
def cmaCompRow (subject : Listing) (baselinePsf : ℚ) (e : Listing × ℚ × ℤ) :
    Option CMAComp :=
  match adjustPrice subject e.1 baselinePsf with
  | .error _ => none
  | .ok (adjustedPrice, adjustments) =>
    let basePrice := (pyOrZ e.1.closePriceCents e.1.listPriceCents).getD 0
    let psf := pricePerSqftCents e.1
    some { listingId := e.1.id
           rawPriceCents := basePrice
           adjustedPriceCents := adjustedPrice
           adjustments := adjustments
           distanceMiles := e.2.1
           daysBack := e.2.2
           psf := match psf with
                  | some v => if v ≠ 0 then some (v / 100) else none
                  | none => none
           similarityScore := computeSimilarity subject e.1 : CMAComp }

/-- The `comps` list accumulated by `compute_cma`. -/
def cmaComps (subject : Listing) (entries : List (Listing × ℚ × ℤ)) : List CMAComp :=
  entries.filterMap (cmaCompRow subject (cmaBaselinePsf subject entries))

/-- `price_mid = int(statistics.median(adjusted_prices))` of
`compute_cma`. -/
def cmaPriceMid (adjustedPrices : List ℤ) : ℤ :=
  pyInt (median (cmaPrices adjustedPrices))

/-- `mad = statistics.median([abs(p - price_mid) ...]) or price_mid * 0.05`
of `compute_cma` (the substitution fires on a falsy, i.e. zero, MAD). -/
def cmaMad (adjustedPrices : List ℤ) : ℚ :=
  if median (adjustedPrices.map
      (fun (p : ℤ) => |((p : ℚ)) - (cmaPriceMid adjustedPrices : ℚ)|)) ≠ 0 then
    median (adjustedPrices.map
      (fun (p : ℤ) => |((p : ℚ)) - (cmaPriceMid adjustedPrices : ℚ)|))
  else (cmaPriceMid adjustedPrices : ℚ) * (1/20)

/-- `band_radius = int(1.4826 * mad)` of `compute_cma`. -/
def cmaBandRadius (adjustedPrices : List ℤ) : ℤ :=
  pyInt ((7413/5000 : ℚ) * cmaMad adjustedPrices)

/-- The aggregation tail of `compute_cma`, reached when at least one
adjusted price exists: truncated median, MAD band (5% of the median
substituted when the MAD is 0), `1.4826 × MAD` half-width, clamped low
bound, confidence, psf chart and deal detection. -/
def cmaAggregate (S : Settings) (subject : Listing)
    (entries : List (Listing × ℚ × ℤ)) (results : List CMAComp) : CMAResult :=
  { priceLowCents := max (cmaPriceMid (results.map (fun c => c.adjustedPriceCents))
      - cmaBandRadius (results.map (fun c => c.adjustedPriceCents)) ) 0
    priceMidCents := cmaPriceMid (results.map (fun c => c.adjustedPriceCents))
    priceHighCents := cmaPriceMid (results.map (fun c => c.adjustedPriceCents))
      + cmaBandRadius (results.map (fun c => c.adjustedPriceCents))
    confidence := confidenceFromPrices (results.map (fun c => c.adjustedPriceCents))
      (entries.map (fun e => e.1))
    comps := results
    psfChart := results.filterMap (fun c =>
      match c.psf with
      | some v => if v ≠ 0 then some (c.listingId, pyRound v 2) else none
      | none => none)
    dealAlert := detectDeal S subject
      (cmaPriceMid (results.map (fun c => c.adjustedPriceCents))) }

/-- `compute_cma` over the comparable triples
`(listing, distance_miles, days_back)`: baseline price per square foot,
per-comparable adjustment (price-less comparables are skipped by the
caught `ValueError`), then the aggregation.  Raises (`Except.error`)
exactly when no comparable yields an adjusted price. -/
def computeCma (S : Settings) (subject : Listing)
    (entries : List (Listing × ℚ × ℤ)) : Except String CMAResult :=
  let results := cmaComps subject entries
  if results.isEmpty then .error "No valid comparable sales provided"
  else .ok (cmaAggregate S subject entries results)

/-! ## Preference matching (`src/core/matching/preferences.py`) -/

/-- A listing feature vector: numeric and tag weight maps
(Python dicts, modelled as insertion-ordered association lists). -/
structure FeatureVector where
  numeric : List (String × ℚ)
  tags : List (String × ℚ)
deriving DecidableEq, Repr

/-- A client preference vector with its staleness timestamp
(seconds). -/
structure PreferenceVector where
  numeric : List (String × ℚ)
  tags : List (String × ℚ)
  updatedAt : ℤ
deriving DecidableEq, Repr

/-- The value of `PreferenceVector.from_client` before any numeric
coercion: `from_client` copies the persisted JSON values as they are
(`dict(raw.get("numeric", {}))`), so the weight maps hold raw `PyVal`
keys and values — `dict()` on an iterable of pairs can produce
non-string (e.g. numeric) keys even though JSON objects cannot. -/
structure PreferenceVectorRaw where
  numeric : List (PyVal × PyVal)
  tags : List (PyVal × PyVal)
  updatedAt : ℤ
deriving DecidableEq, Repr

/-- Python hashability of a JSON value: numbers, booleans, strings and
`None` are hashable dict keys; lists and dicts are not. -/
def PyVal.hashable : PyVal → Bool
  | .arr _ => false
  | .obj _ => false
  | _ => true

/-- One element of a `dict()` update sequence: Python accepts any
2-sequence — a 2-element list `[k, v]` (whose key must be hashable), a
2-character string (`"ab"` gives the pair `'a', 'b'`), or a dict with
exactly two (distinct) keys (iterating it yields its keys).  A
non-iterable element raises `TypeError`; an iterable of the wrong
length raises `ValueError`; an unhashable key raises `TypeError`. -/
def dictElemToPair : PyVal → Except PyErr (PyVal × PyVal)
  | .arr [k, v] => if k.hashable then .ok (k, v) else .error .typeError
  | .arr _ => .error .valueError
  | .str s =>
      match s.toList with
      | [c1, c2] => .ok (.str (String.mk [c1]), .str (String.mk [c2]))
      | _ => .error .valueError
  | .obj o =>
      match (o.map Prod.fst).eraseDups with
      | [k1, k2] => .ok (.str k1, .str k2)
      | _ => .error .valueError
  | _ => .error .typeError

/-- Python `dict(x)`: copies a mapping; iterates any other iterable as
a sequence of key/value 2-sequences (so `dict([[1, 2]])`, `dict(["ab"])`
and `dict([{"x": 1, "y": 2}])` all succeed, and `dict("")` is `{}`
while a non-empty string raises because its elements are 1-sequences);
non-iterables (numbers, booleans, `None`) raise `TypeError`.  The
result is kept as the insertion-ordered pair list; Python's last-wins
key deduplication is not applied, which no theorem observes since
`from_client` only stores the result. -/
def pyDict : PyVal → Except PyErr (List (PyVal × PyVal))
  | .obj l => .ok (l.map (fun kv => (.str kv.1, kv.2)))
  | .arr l => l.mapM dictElemToPair
  | .str s => if s.isEmpty then .ok [] else .error .valueError
  | _ => .error .typeError

/-- `PreferenceVector.from_client`: read the persisted
`client.preference_vector` JSON.  `parseIso` models
`datetime.fromisoformat`, returning `none` where Python raises
`ValueError` (which the source catches); a truthy non-string timestamp
makes `fromisoformat` raise `TypeError`, which the source does not
catch.  A truthy non-dict state hits `raw.get(...)` and raises
`AttributeError`. -/
def fromClient (parseIso : String → Option ℤ) (now : ℤ) (pv : PyVal) :
    Except PyErr PreferenceVectorRaw :=
  let raw := if pv.truthy then pv else .obj []
  match raw with
  | .obj fields => do
      let ts := dictGet fields "updated_at"
      let updatedAt ←
        if ts.truthy then
          match ts with
          | .str s => Except.ok ((parseIso s).getD now)
          | _ => Except.error .typeError
        else Except.ok now
      let numeric ← pyDict (dictGetD fields "numeric" (.obj []))
      let tags ← pyDict (dictGetD fields "tags" (.obj []))
      Except.ok { numeric := numeric, tags := tags, updatedAt := updatedAt }
  | _ => .error .attributeError

/-- A `PyVal` used as a number: Python arithmetic accepts numbers and
booleans and raises `TypeError` otherwise (string concatenation would
fail at the subsequent division instead; either way it raises). -/
def PyVal.asNum : PyVal → Except PyErr ℚ
  | .num q => .ok q
  | .bool b => .ok (if b then 1 else 0)
  | _ => .error .typeError

/-- The `elif` chain after the `price` band check in
`vector_from_listing`: explicit `price_min`/`price_max` midpoint when
both are truthy, else the listing price in dollars when truthy, else
`None`. -/
def priceTargetElse (prefsD : List (String × PyVal)) (priceCents : Option ℤ) :
    Except PyErr (Option ℚ) :=
  if (dictGet prefsD "price_max").truthy ∧ (dictGet prefsD "price_min").truthy then do
    let mn ← (dictGet prefsD "price_min").asNum
    let mx ← (dictGet prefsD "price_max").asNum
    Except.ok (some ((mn + mx) / 2))
  else if truthyZ priceCents then
    Except.ok (some ((priceCents.getD 0 : ℚ) / 100))
  else Except.ok none

/-- `price_target` of `vector_from_listing`: the midpoint of a
two-element `price` band list if present, else the `elif` chain. -/
def priceTargetOf (prefsD : List (String × PyVal)) (priceCents : Option ℤ) :
    Except PyErr (Option ℚ) :=
  match dictGet prefsD "price" with
  | .arr [x, y] => do
      let nx ← x.asNum
      let ny ← y.asNum
      Except.ok (some ((nx + ny) / 2))
  | .arr _ => priceTargetElse prefsD priceCents
  | _ => priceTargetElse prefsD priceCents

/-- `vector_from_listing`.  `nowYear` is the value of
`datetime.utcnow().year` at call time (read twice by the source, for
the `year_built` default and the `new_construction` cutoff; both reads
occur in the same call and are modelled by one parameter).
`_normalize(v, d)` is `Option.getD d` (it defaults only on `None`). -/
def vectorFromListing (nowYear : ℤ) (listing : Listing)
    (explicitPrefs : Option (List (String × PyVal))) : Except PyErr FeatureVector := do
  let priceCents := pyOrZ listing.listPriceCents listing.marketEstimateCents
  let prefsD := explicitPrefs.getD []
  let priceTarget ← priceTargetOf prefsD priceCents
  let priceFeature : ℚ :=
    match priceTarget with
    | some t => if t ≠ 0 then t else (priceCents.getD 0 : ℚ) / 10000
    | none => (priceCents.getD 0 : ℚ) / 10000
  Except.ok
    { numeric :=
        [("price", priceFeature),
         ("sqft", (listing.sqft.getD 0 : ℚ) / 4000),
         ("beds", listing.beds.getD 0),
         ("baths", listing.baths.getD 0),
         ("lot_sqft", (listing.lotSqft.getD 0 : ℚ) / 20000),
         ("year_built", ((listing.yearBuilt.getD nowYear : ℚ) - 1950) / 100),
         ("hoa_fee", (listing.hoaFeeCents.getD 0 : ℚ) / 10000),
         ("days_on_market", (listing.daysOnMarket.getD 0 : ℚ) / 120)]
      tags :=
        [("has_garage",
           if (dictGet listing.amenities "garage").truthy then 1
           else (listing.parkingSpaces.getD 0 : ℚ)),
         ("has_pool", if (dictGet listing.amenities "pool").truthy then 1 else 0),
         ("new_construction",
           if truthyZ listing.yearBuilt ∧ listing.yearBuilt.getD 0 ≥ nowYear - 3
           then 1 else 0),
         ("walkable",
           match dictGet listing.amenities "walkscore" with
           | .num q => if q ≥ 70 then 1 else 0
           | .bool _ => 0
           | _ => 0),
         ("open_floorplan", if listing.features.contains "open_floorplan" then 1 else 0),
         ("finished_basement", if listing.features.contains "finished_basement" then 1 else 0),
         ("large_yard",
           if truthyZ listing.lotSqft ∧ listing.lotSqft.getD 0 ≥ 8000 then 1 else 0),
         ("waterfront",
           if ¬ listing.features.isEmpty ∧ listing.features.contains "waterfront"
           then 1 else 0)] }

/-- First value stored under a key in an association-list map. -/
def lookupQ (m : List (String × ℚ)) (k : String) : Option ℚ :=
  (m.find? (fun p => p.1 = k)).map (fun p => p.2)

/-- `d[k] = v` on a Python dict modelled as an association list with
unique keys: replace the first binding of `k`, or append. -/
def updAssoc (m : List (String × ℚ)) (k : String) (v : ℚ) : List (String × ℚ) :=
  match m with
  | [] => [(k, v)]
  | (k', v') :: rest => if k' = k then (k, v) :: rest else (k', v') :: updAssoc rest k v

/-- One pass of the `apply_feedback` update loops over a weight map:
`prefs[key] = prefs.get(key, 0.0) + lr * signal * value` for each
`(key, value)` of the feature vector, in order. -/
def feedbackPass (lr signal : ℚ) (vec : List (String × ℚ)) (m : List (String × ℚ)) :
    List (String × ℚ) :=
  vec.foldl (fun acc kv => updAssoc acc kv.1 ((lookupQ acc kv.1).getD 0 + lr * signal * kv.2)) m

/-- `apply_feedback`.  The Python function mutates the caller's
`PreferenceVector` in place and returns that same object; the returned
value here is therefore also the post-state of the caller's argument.
`learning_rate or settings.preference_learning_rate` treats an explicit
`0` rate as falsy.  `now` is the `datetime.utcnow()` read. -/
def resolveLr (S : Settings) (learningRate : Option ℚ) : ℚ :=
  match learningRate with
  | some l => if l ≠ 0 then l else S.preferenceLearningRate
  | none => S.preferenceLearningRate

def applyFeedback (S : Settings) (now : ℤ) (prefs : PreferenceVector)
    (vec : FeatureVector) (signalStrength : ℚ) (learningRate : Option ℚ) :
    PreferenceVector :=
  { numeric := feedbackPass (resolveLr S learningRate) signalStrength
      vec.numeric prefs.numeric
    tags := feedbackPass (resolveLr S learningRate) signalStrength
      vec.tags prefs.tags
    updatedAt := now }

/-- `decay_factor = max(0.2, 1 - delta.days / (settings.preference_decay_days * 4))`
of `decay_preferences`, as a function of the elapsed whole days. -/
def decayFactor (S : Settings) (deltaDays : ℤ) : ℚ :=
  max (1/5) (1 - (deltaDays : ℚ) / ((S.preferenceDecayDays : ℚ) * 4))

/-- `decay_preferences`.  As with `apply_feedback`, the Python function
mutates the caller's object in place and returns it, so the returned
value is the post-state of the argument.  `delta.days` on a Python
`timedelta` is the floor of the elapsed seconds over 86400, and the
`delta <= timedelta(days=...)` comparison is exact in seconds. -/
def decayPreferences (S : Settings) (now : ℤ) (prefs : PreferenceVector) :
    PreferenceVector :=
  if now - prefs.updatedAt ≤ S.preferenceDecayDays * 86400 then prefs
  else
    { numeric := prefs.numeric.map (fun kv =>
        (kv.1, kv.2 * decayFactor S (Int.fdiv (now - prefs.updatedAt) 86400)))
      tags := prefs.tags.map (fun kv =>
        (kv.1, kv.2 * decayFactor S (Int.fdiv (now - prefs.updatedAt) 86400)))
      updatedAt := now }

/-! ## Comparable selection (`src/apps/workers/tasks.py`) -/

/-- `_haversine`: returns `None` when any of the four coordinates is
falsy (`None` or exactly `0`, by `not all([...])`).  The trigonometric
body (`math.radians`/`sin`/`cos`/`asin`/`sqrt` over IEEE floats scaled
by 3958.8) has no exact rational embedding and is kept abstract as the
`core` parameter; the claims about `_haversine` concern only when it is
defined, which is independent of `core`. -/
def haversine (core : ℚ → ℚ → ℚ → ℚ → ℚ) (lat1 lon1 lat2 lon2 : Option ℚ) :
    Option ℚ :=
  if truthyQ lat1 && truthyQ lon1 && truthyQ lat2 && truthyQ lon2 then
    some (core (lat1.getD 0) (lon1.getD 0) (lat2.getD 0) (lon2.getD 0))
  else none

/-- The yield loop of `_select_comparables`, over the candidate rows
already returned by the SQL query (status/property-type/sqft/city
filters and the limit of 50 happen in the database, before this loop):
skip a candidate when the distance is undefined or exceeds the radius,
else yield `(listing, distance, days_back)`.  `comparison_date` chains
`or` over datetime columns, which are truthy whenever non-`None`. -/
def selectComparables (core : ℚ → ℚ → ℚ → ℚ → ℚ) (S : Settings) (nowUtc : ℤ)
    (subject : Listing) (candidates : List Listing) : List (Listing × ℚ × ℤ) :=
  candidates.filterMap (fun l =>
    match haversine core subject.latitude subject.longitude l.latitude l.longitude with
    | none => none
    | some d =>
      if d > S.cmaRadiusMiles then none
      else
        let comparisonDate := (l.offMarketAt.orElse (fun _ => l.sourceUpdatedAt)).orElse
          (fun _ => l.updatedAt)
        let daysBack := match comparisonDate with
          | some cd => Int.fdiv (nowUtc - cd) 86400
          | none => S.cmaDaysBack
        some (l, d, daysBack))

/-! ## Helper lemmas -/

lemma mem_insertSorted {x a : ℚ} : ∀ {l : List ℚ}, x ∈ insertSorted a l → x = a ∨ x ∈ l
  | [], h => by simpa [insertSorted] using h
  | y :: ys, h => by
      unfold insertSorted at h
      split at h
      · simpa using h
      · rcases List.mem_cons.mp h with h' | h'
        · exact Or.inr (by simp [h'])
        · rcases mem_insertSorted h' with h'' | h''
          · exact Or.inl h''
          · exact Or.inr (List.mem_cons_of_mem _ h'')

lemma mem_sortQ {x : ℚ} : ∀ {l : List ℚ}, x ∈ sortQ l → x ∈ l
  | [], h => by simp [sortQ] at h
  | y :: ys, h => by
      unfold sortQ at h
      rcases mem_insertSorted h with h' | h'
      · simp [h']
      · exact List.mem_cons_of_mem _ (mem_sortQ h')

lemma getD_nonneg {l : List ℚ} (h : ∀ x ∈ l, 0 ≤ x) : ∀ i : ℕ, 0 ≤ l.getD i 0 := by
  induction l with
  | nil => intro i; simp [List.getD]
  | cons a t ih =>
      intro i
      cases i with
      | zero => simpa using h a (by simp)
      | succ j =>
          simpa [List.getD] using ih (fun x hx => h x (List.mem_cons_of_mem _ hx)) j

lemma median_nonneg {l : List ℚ} (h : ∀ x ∈ l, 0 ≤ x) : 0 ≤ median l := by
  have hs : ∀ x ∈ sortQ l, 0 ≤ x := fun x hx => h x (mem_sortQ hx)
  unfold median
  split
  · exact getD_nonneg hs _
  · have h1 := getD_nonneg hs ((sortQ l).length / 2 - 1)
    have h2 := getD_nonneg hs ((sortQ l).length / 2)
    positivity

lemma pyInt_nonneg {q : ℚ} (h : 0 ≤ q) : 0 ≤ pyInt q := by
  unfold pyInt
  rw [if_neg (not_lt.mpr h)]
  exact Int.floor_nonneg.mpr h

lemma pyRound0_nonneg {q : ℚ} (h : 0 ≤ q) : 0 ≤ pyRound0 q := by
  have hf : (0 : ℤ) ≤ ⌊q⌋ := Int.floor_nonneg.mpr h
  unfold pyRound0
  split
  · exact hf
  · split
    · omega
    · split <;> omega

lemma pyRound0_le {q : ℚ} {B : ℤ} (h : q ≤ B) : pyRound0 q ≤ B := by
  have hf : ⌊q⌋ ≤ B := by
    calc ⌊q⌋ ≤ ⌊(B : ℚ)⌋ := Int.floor_le_floor h
    _ = B := Int.floor_intCast B
  have hstep : q - ⌊q⌋ > 0 → ⌊q⌋ + 1 ≤ B := by
    intro hr
    by_contra hcon
    have hfb : ⌊q⌋ = B := by omega
    have hqle : q ≤ (⌊q⌋ : ℚ) := by rw [hfb]; exact_mod_cast h
    linarith
  unfold pyRound0
  split
  · exact hf
  · split
    · exact hstep (by linarith)
    · split
      · exact hf
      · have hhalf : q - ⌊q⌋ = 1/2 := by linarith
        exact hstep (by rw [hhalf]; norm_num)

lemma pyRound_bounds01 {q : ℚ} (h0 : 0 ≤ q) (h1 : q ≤ 1) :
    0 ≤ pyRound q 2 ∧ pyRound q 2 ≤ 1 := by
  have hb0 : (0 : ℤ) ≤ pyRound0 (q * 10 ^ 2) := pyRound0_nonneg (by positivity)
  have hb1 : pyRound0 (q * 10 ^ 2) ≤ (100 : ℤ) := pyRound0_le (by push_cast; nlinarith)
  unfold pyRound
  constructor
  · positivity
  · rw [div_le_one (by norm_num)]
    calc ((pyRound0 (q * 10 ^ 2) : ℚ)) ≤ ((100 : ℤ) : ℚ) := by exact_mod_cast hb1
    _ = (10 : ℚ) ^ 2 := by norm_num

lemma clampConf_bounds (x : ℚ) : 1/5 ≤ clampConf x ∧ clampConf x ≤ 19/20 :=
  ⟨le_max_left _ _, max_le (by norm_num) (min_le_left _ _)⟩

lemma clampRecent_bounds (x : ℚ) : 4/5 ≤ clampRecent x ∧ clampRecent x ≤ 1 :=
  ⟨le_max_left _ _, max_le (by norm_num) (min_le_left _ _)⟩

lemma confRecentFactor_bounds (comps : List Listing) :
    0 ≤ confRecentFactor comps ∧ confRecentFactor comps ≤ 1 := by
  unfold confRecentFactor
  split
  · norm_num
  · exact ⟨le_trans (by norm_num) (clampRecent_bounds _).1, (clampRecent_bounds _).2⟩

lemma confidenceFromPrices_bounds (ap : List ℤ) (comps : List Listing) :
    0 ≤ confidenceFromPrices ap comps ∧ confidenceFromPrices ap comps ≤ 1 := by
  unfold confidenceFromPrices
  split
  · norm_num
  · split
    · norm_num
    · have hc := clampConf_bounds (min 1 ((ap.length : ℚ) / 6)
        * (1 - confVariability (cmaPrices ap)))
      have hr := confRecentFactor_bounds comps
      have hc0 : (0 : ℚ) ≤ clampConf (min 1 ((ap.length : ℚ) / 6)
          * (1 - confVariability (cmaPrices ap))) := le_trans (by norm_num) hc.1
      refine pyRound_bounds01 (mul_nonneg hc0 hr.1) ?_
      calc clampConf (min 1 ((ap.length : ℚ) / 6) * (1 - confVariability (cmaPrices ap)))
            * confRecentFactor comps ≤ (19/20) * 1 :=
            mul_le_mul hc.2 hr.2 hr.1 (by norm_num)
      _ ≤ 1 := by norm_num

lemma adjustPrice_ok_nonneg {s c : Listing} {psf : ℚ} {p : ℤ}
    {adjs : List (String × ℤ)} (h : adjustPrice s c psf = .ok (p, adjs)) : 0 ≤ p := by
  unfold adjustPrice at h
  cases hb : truthyZ (pyOrZ c.closePriceCents c.listPriceCents) with
  | false => simp [hb] at h
  | true =>
      simp only [hb, if_true, Except.ok.injEq, Prod.mk.injEq] at h
      obtain ⟨h1, -⟩ := h
      exact h1 ▸ le_max_right _ _

lemma mem_cmaComps_nonneg {subj : Listing} {es : List (Listing × ℚ × ℤ)} :
    ∀ c ∈ cmaComps subj es, 0 ≤ c.adjustedPriceCents := by
  intro c hc
  rcases List.mem_filterMap.mp hc with ⟨e, _, hrow⟩
  simp only [cmaCompRow] at hrow
  split at hrow
  · exact absurd hrow (by simp)
  · next p adjs heq =>
      simp only [Option.some.injEq] at hrow
      rw [← hrow]
      exact adjustPrice_ok_nonneg heq

lemma cmaPriceMid_nonneg {ap : List ℤ} (h : ∀ p ∈ ap, 0 ≤ p) : 0 ≤ cmaPriceMid ap := by
  unfold cmaPriceMid cmaPrices
  refine pyInt_nonneg (median_nonneg ?_)
  intro x hx
  rcases List.mem_map.mp hx with ⟨p, hp, rfl⟩
  exact_mod_cast h p hp

lemma cmaMad_nonneg {ap : List ℤ} (h : ∀ p ∈ ap, 0 ≤ p) : 0 ≤ cmaMad ap := by
  have hmid : (0 : ℚ) ≤ (cmaPriceMid ap : ℚ) := by exact_mod_cast cmaPriceMid_nonneg h
  unfold cmaMad
  split
  · refine median_nonneg ?_
    intro x hx
    rcases List.mem_map.mp hx with ⟨p, hp, rfl⟩
    exact abs_nonneg _
  · exact mul_nonneg hmid (by norm_num)

lemma cmaBandRadius_nonneg {ap : List ℤ} (h : ∀ p ∈ ap, 0 ≤ p) :
    0 ≤ cmaBandRadius ap :=
  pyInt_nonneg (mul_nonneg (by norm_num) (cmaMad_nonneg h))

/-! ## Claim theorems -/

/-- C1: for every valuation `compute_cma` returns, the price band is
ordered (`price_low ≤ price_mid ≤ price_high`), all three prices are
non-negative, and the confidence lies in `[0, 1]`. -/
theorem cma_price_band_and_confidence_invariants (S : Settings) (subject : Listing)
    (entries : List (Listing × ℚ × ℤ)) (r : CMAResult)
    (h : computeCma S subject entries = .ok r) :
    0 ≤ r.priceLowCents ∧ r.priceLowCents ≤ r.priceMidCents ∧
    r.priceMidCents ≤ r.priceHighCents ∧ 0 ≤ r.priceMidCents ∧
    0 ≤ r.priceHighCents ∧ 0 ≤ r.confidence ∧ r.confidence ≤ 1 := by
  simp only [computeCma] at h
  split at h
  · simp at h
  · simp only [Except.ok.injEq] at h
    subst h
    have hpos : ∀ p ∈ (cmaComps subject entries).map (fun c => c.adjustedPriceCents), 0 ≤ p := by
      intro p hp
      rcases List.mem_map.mp hp with ⟨c, hc, rfl⟩
      exact mem_cmaComps_nonneg c hc
    have hmid := cmaPriceMid_nonneg hpos
    have hband := cmaBandRadius_nonneg hpos
    have hconf := confidenceFromPrices_bounds
      ((cmaComps subject entries).map (fun c => c.adjustedPriceCents))
      (entries.map (fun e => e.1))
    simp only [cmaAggregate]
    exact ⟨le_max_right _ _, max_le (by omega) hmid, by omega, hmid, by omega,
      hconf.1, hconf.2⟩

/-- The all-`none` result used as an unreachable default when
extracting a concrete `CMAResult` from an `Except`. -/
def emptyResult : CMAResult :=
  { priceLowCents := 0, priceMidCents := 0, priceHighCents := 0, confidence := 0,
    comps := [], psfChart := [], dealAlert := none }

/-- A comparable with only a close price, for concrete evaluation. -/
def w1comp : Listing := { blankListing with id := "c1", closePriceCents := some 100 }

/-- The valuation of `blankListing` against `w1comp`. -/
def w1res : CMAResult :=
  (computeCma defaultSettings blankListing [(w1comp, 0, 0)]).toOption.getD emptyResult

/-- Witness for C1 at a concrete valuation. -/
theorem cma_price_band_and_confidence_invariants_witness :
    0 ≤ w1res.priceLowCents ∧ w1res.priceLowCents ≤ w1res.priceMidCents ∧
    w1res.priceMidCents ≤ w1res.priceHighCents ∧ 0 ≤ w1res.priceMidCents ∧
    0 ≤ w1res.priceHighCents ∧ 0 ≤ w1res.confidence ∧ w1res.confidence ≤ 1 :=
  cma_price_band_and_confidence_invariants defaultSettings blankListing
    [(w1comp, 0, 0)] w1res (by decide)

lemma computeCma_ok_shape {S : Settings} {subj : Listing}
    {es : List (Listing × ℚ × ℤ)} {r : CMAResult}
    (h : computeCma S subj es = .ok r) :
    r = cmaAggregate S subj es (cmaComps subj es) ∧ (cmaComps subj es).isEmpty = false := by
  simp only [computeCma] at h
  split at h
  · simp at h
  · next hne =>
      simp only [Except.ok.injEq] at h
      exact ⟨h.symm, by simpa using hne⟩

lemma computeCma_ok_dealAlert {S : Settings} {subj : Listing}
    {es : List (Listing × ℚ × ℤ)} {r : CMAResult}
    (h : computeCma S subj es = .ok r) :
    r.dealAlert = detectDeal S subj r.priceMidCents := by
  rw [(computeCma_ok_shape h).1]
  rfl

lemma detectDeal_isSome_iff {S : Settings} {subj : Listing} {mid l : ℤ}
    (hl : subj.listPriceCents = some l) (hl0 : 0 < l) (hmid : 0 < mid) :
    (detectDeal S subj mid).isSome = true ↔
      ((l : ℚ) / (mid : ℚ) ≤ S.dealDiscountThreshold ∧
       ∀ k ∈ dealConditionKeys, (dictGet subj.conditionNotes k).truthy = false) := by
  have hne : l ≠ 0 := by omega
  unfold detectDeal
  simp only [hl, truthyZ, Option.getD_some]
  rw [if_neg (by simp [hne]; omega)]
  split
  · next hgt =>
      simp only [Option.isSome_none, Bool.false_eq_true, false_iff, not_and]
      intro hle
      exact absurd hle (not_le.mpr hgt)
  · next hng =>
      split
      · next hany =>
          simp only [List.any_eq_true] at hany
          obtain ⟨k, hk, htk⟩ := hany
          simp only [Option.isSome_none, Bool.false_eq_true, false_iff, not_and]
          intro _ hall
          rw [hall k hk] at htk
          exact absurd htk (by simp)
      · next hnone =>
          simp only [Option.isSome_some, true_iff]
          refine ⟨not_lt.mp hng, ?_⟩
          intro k hk
          by_contra hcon
          exact hnone (List.any_eq_true.mpr ⟨k, hk, by simpa using hcon⟩)

/-- C2: the valuation result carries a DealAlert exactly when the
subject's list price over the computed median is at or below the
configured discount threshold and none of the condition-note keys
mechanical / electrical / structural is present and truthy. -/
theorem deal_alert_iff_discount_and_no_flags (S : Settings) (subject : Listing)
    (entries : List (Listing × ℚ × ℤ)) (r : CMAResult) (l : ℤ)
    (h : computeCma S subject entries = .ok r)
    (hl : subject.listPriceCents = some l) (hl0 : 0 < l)
    (hmid : 0 < r.priceMidCents) :
    r.dealAlert.isSome = true ↔
      ((l : ℚ) / (r.priceMidCents : ℚ) ≤ S.dealDiscountThreshold ∧
       ∀ k ∈ dealConditionKeys, (dictGet subject.conditionNotes k).truthy = false) := by
  rw [computeCma_ok_dealAlert h]
  exact detectDeal_isSome_iff hl hl0 hmid

/-- A subject listed at 70 while the single comparable closes at 100. -/
def c2subj : Listing := { blankListing with id := "s2", listPriceCents := some 70 }

/-- The valuation of `c2subj` against `w1comp`. -/
def c2res : CMAResult :=
  (computeCma defaultSettings c2subj [(w1comp, 0, 0)]).toOption.getD emptyResult

/-- Witness for C2: at ratio 0.7 with no condition flags the alert is
present. -/
theorem deal_alert_iff_discount_and_no_flags_witness : c2res.dealAlert.isSome = true :=
  (deal_alert_iff_discount_and_no_flags defaultSettings c2subj [(w1comp, 0, 0)]
    c2res 70 (by decide) (by decide) (by decide) (by decide)).mpr (by decide)

lemma cmaCompRow_isSome (subj : Listing) (psf : ℚ) (e : Listing × ℚ × ℤ) :
    (cmaCompRow subj psf e).isSome
      = truthyZ (pyOrZ e.1.closePriceCents e.1.listPriceCents) := by
  unfold cmaCompRow adjustPrice
  cases hb : truthyZ (pyOrZ e.1.closePriceCents e.1.listPriceCents) <;> simp [hb]

lemma length_filterMap_countP {α β : Type _} (f : α → Option β) (l : List α) :
    (l.filterMap f).length = l.countP (fun a => (f a).isSome) := by
  induction l with
  | nil => rfl
  | cons a t ih =>
      cases h : f a
      · simp [List.filterMap_cons, h, List.countP_cons, ih]
      · simp [List.filterMap_cons, h, List.countP_cons, ih]

lemma cmaComps_length (subj : Listing) (es : List (Listing × ℚ × ℤ)) :
    (cmaComps subj es).length
      = es.countP (fun e => truthyZ (pyOrZ e.1.closePriceCents e.1.listPriceCents)) := by
  unfold cmaComps
  rw [length_filterMap_countP]
  simp only [cmaCompRow_isSome]

/-- C3: a comparable without close or list price is skipped (it yields
no row), the remaining comparables all survive, and `compute_cma`
returns a result exactly when some comparable has a price — failing
with the insufficient-data error exactly when none has. -/
theorem cma_skips_unpriced_and_fails_iff_no_priced_comp (S : Settings)
    (subject : Listing) (entries : List (Listing × ℚ × ℤ)) :
    (∀ e ∈ entries, truthyZ (pyOrZ e.1.closePriceCents e.1.listPriceCents) = false →
        cmaCompRow subject (cmaBaselinePsf subject entries) e = none)
    ∧ ((computeCma S subject entries).isOk = true ↔
        entries.any (fun e => truthyZ (pyOrZ e.1.closePriceCents e.1.listPriceCents)) = true)
    ∧ (∀ r, computeCma S subject entries = .ok r →
        r.comps.length =
          entries.countP (fun e => truthyZ (pyOrZ e.1.closePriceCents e.1.listPriceCents))) := by
  refine ⟨?_, ?_, ?_⟩
  · intro e _ hfalse
    have := cmaCompRow_isSome subject (cmaBaselinePsf subject entries) e
    rw [hfalse] at this
    exact Option.not_isSome_iff_eq_none.mp (by simp [this])
  · have hlen := cmaComps_length subject entries
    simp only [computeCma]
    split
    · next hemp =>
        simp only [Except.isOk, Except.toBool]
        constructor
        · intro hcon; exact absurd hcon (by simp)
        · intro hany
          rcases List.any_eq_true.mp hany with ⟨e, he, hp⟩
          have h0 : (cmaComps subject entries).length = 0 := by
            simp [List.isEmpty_iff.mp hemp]
          rw [hlen] at h0
          have := List.countP_eq_zero.mp h0 e he
          simp [hp] at this
    · next hemp =>
        simp only [Except.isOk, Except.toBool, true_iff]
        have hne : cmaComps subject entries ≠ [] := by
          intro hcon; exact hemp (by simp [hcon])
        have hpos : 0 < (cmaComps subject entries).length :=
          List.length_pos.mpr hne
        rw [hlen] at hpos
        rcases List.countP_pos_iff.mp hpos with ⟨e, he, hp⟩
        exact List.any_eq_true.mpr ⟨e, he, hp⟩
  · intro r h
    rw [(computeCma_ok_shape h).1]
    exact cmaComps_length subject entries

/-- A comparable with no price data at all. -/
def c3unpriced : Listing := { blankListing with id := "c3u" }

/-- The valuation over one priced and one unpriced comparable. -/
def c3res : CMAResult :=
  (computeCma defaultSettings blankListing
    [(c3unpriced, 0, 0), (w1comp, 0, 0)]).toOption.getD emptyResult

/-- Witness for C3: the unpriced comparable is skipped, the valuation
still succeeds, and exactly one comp row remains. -/
theorem cma_skips_unpriced_witness :
    cmaCompRow blankListing
      (cmaBaselinePsf blankListing [(c3unpriced, 0, 0), (w1comp, 0, 0)])
      (c3unpriced, 0, 0) = none
    ∧ (computeCma defaultSettings blankListing
        [(c3unpriced, 0, 0), (w1comp, 0, 0)]).isOk = true
    ∧ c3res.comps.length = 1 := by
  have h := cma_skips_unpriced_and_fails_iff_no_priced_comp defaultSettings
    blankListing [(c3unpriced, 0, 0), (w1comp, 0, 0)]
  refine ⟨h.1 (c3unpriced, 0, 0) (by decide) (by decide), h.2.1.mpr (by decide), ?_⟩
  rw [h.2.2 c3res (by decide)]
  decide

lemma mem_map_fst_ite {c : Prop} [Decidable c] (k a : String) (v : ℤ) :
    (a ∈ List.map Prod.fst (if c then [(k, v)] else [])) ↔ (c ∧ a = k) := by
  split <;> simp_all

lemma mem_map_fst_ite2 {c1 c2 : Prop} [Decidable c1] [Decidable c2]
    (k a : String) (v1 v2 : ℤ) :
    (a ∈ List.map Prod.fst (if c1 then [(k, v1)] else if c2 then [(k, v2)] else []))
      ↔ ((c1 ∨ (¬ c1 ∧ c2)) ∧ a = k) := by
  split
  · simp_all
  · split <;> simp_all

/-- C5 counterexample: the subject has 3 bedrooms, the comparable has
no bedroom count at all, yet a bedrooms delta of `3 × $12k` is applied
— refuting the claim that each named delta requires the attribute on
both sides. -/
def c5subj : Listing := { blankListing with id := "s5", beds := some 3 }

/-- C5, counterexample: with `comp.beds = None` the claim says the
bedrooms delta must be absent, but the code records
`bedrooms ↦ 3600000` and adds it to the price. -/
theorem adjustments_missing_attr_counterexample :
    w1comp.beds = none
    ∧ (adjustPrice c5subj w1comp 0).toOption.getD (0, [])
        = (3600100, [("bedrooms", 3600000)]) := by decide

/-- C5 as amended: the living-area, lot-size and year-built deltas are
applied exactly when both sides provide a truthy attribute, but the
bedroom and bathroom deltas treat a missing count as 0 and fire
whenever the defaulted difference is nonzero (possibly with one side
missing); the adjusted price is the base price plus the recorded
deltas, clamped at 0, so an absent delta contributes nothing. -/
theorem adjustments_attr_requirements (s c : Listing) (psf : ℚ) (p : ℤ)
    (adjs : List (String × ℤ)) (h : adjustPrice s c psf = .ok (p, adjs)) :
    (("living_area" ∈ adjs.map Prod.fst) ↔
      (truthyZ s.sqft = true ∧ truthyZ c.sqft = true))
    ∧ (("lot_size" ∈ adjs.map Prod.fst) ↔
      (truthyZ s.lotSqft = true ∧ truthyZ c.lotSqft = true))
    ∧ (("year_built" ∈ adjs.map Prod.fst) ↔
      (truthyZ s.yearBuilt = true ∧ truthyZ c.yearBuilt = true))
    ∧ (("bedrooms" ∈ adjs.map Prod.fst) ↔ s.beds.getD 0 - c.beds.getD 0 ≠ 0)
    ∧ (("bathrooms" ∈ adjs.map Prod.fst) ↔ s.baths.getD 0 - c.baths.getD 0 ≠ 0)
    ∧ p = max ((pyOrZ c.closePriceCents c.listPriceCents).getD 0
        + (adjs.map Prod.snd).sum) 0 := by
  unfold adjustPrice at h
  cases hb : truthyZ (pyOrZ c.closePriceCents c.listPriceCents) with
  | false => simp [hb] at h
  | true =>
      simp only [hb, if_true, Except.ok.injEq, Prod.mk.injEq] at h
      obtain ⟨hp, hadj⟩ := h
      subst hadj
      subst hp
      refine ⟨?_, ?_, ?_, ?_, ?_, rfl⟩ <;>
        · simp only [List.map_append, List.mem_append, mem_map_fst_ite, mem_map_fst_ite2]
          simp

/-- Witness for the amended C5 at the counterexample pair: the
bedrooms delta is present although the comparable lacks a bed count. -/
theorem adjustments_attr_requirements_witness :
    ("bedrooms" : String) ∈ ([(("bedrooms" : String), (3600000 : ℤ))].map Prod.fst) :=
  (adjustments_attr_requirements c5subj w1comp 0 3600100 [("bedrooms", 3600000)]
    (by decide)).2.2.2.1.mpr (by decide)

lemma lookupQ_head (k : String) (v : ℚ) (rest : List (String × ℚ)) :
    lookupQ ((k, v) :: rest) k = some v := by
  unfold lookupQ
  rw [List.find?_cons_of_pos _ (by simp)]
  rfl

/-- A listing priced at $350,000 (35,000,000 cents) with no hints. -/
def c4listing : Listing := { blankListing with id := "l4", listPriceCents := some 35000000 }

/-- C4, counterexample: with no explicit bounds the price-center is the
listing's own price, so the claimed deviation is 0; the code instead
stores the center itself (350000 dollars) as the feature. -/
theorem price_feature_counterexample :
    (vectorFromListing 2026 c4listing none).toOption.map
      (fun fv : FeatureVector => lookupQ fv.numeric "price") = some (some 350000)
    ∧ ((350000 : ℚ) - 350000) / 350000 ≠ (350000 : ℚ) := by decide

/-- C4 as amended: the numeric `price` feature equals the price-center
itself, not a deviation from it — the midpoint of a two-element `price`
band, else the midpoint of truthy `price_min`/`price_max` bounds, else
the listing's own price in dollars (`price_cents / 100`); the nonzero
hypotheses keep the falsy-center fallback from firing. -/
theorem price_feature_is_center (y : ℤ) (listing : Listing)
    (prefsD : List (String × PyVal)) (fv : FeatureVector)
    (h : vectorFromListing y listing (some prefsD) = .ok fv) :
    (∀ a b : ℚ, dictGet prefsD "price" = .arr [.num a, .num b] → (a + b) / 2 ≠ 0 →
        lookupQ fv.numeric "price" = some ((a + b) / 2))
    ∧ (∀ mn mx : ℚ, dictGet prefsD "price" = .null →
        dictGet prefsD "price_min" = .num mn →
        dictGet prefsD "price_max" = .num mx → mn ≠ 0 → mx ≠ 0 →
        (mn + mx) / 2 ≠ 0 →
        lookupQ fv.numeric "price" = some ((mn + mx) / 2))
    ∧ (∀ pc : ℤ, dictGet prefsD "price" = .null →
        (dictGet prefsD "price_max").truthy = false →
        pyOrZ listing.listPriceCents listing.marketEstimateCents = some pc → pc ≠ 0 →
        lookupQ fv.numeric "price" = some ((pc : ℚ) / 100)) := by
  refine ⟨?_, ?_, ?_⟩
  · intro a b hband hne
    have hpt : priceTargetOf prefsD (pyOrZ listing.listPriceCents listing.marketEstimateCents)
        = .ok (some ((a + b) / 2)) := by
      unfold priceTargetOf
      rw [hband]
      simp [PyVal.asNum, bind, Except.bind]
    simp only [vectorFromListing, Option.getD_some, bind, Except.bind, hpt,
      Except.ok.injEq] at h
    subst h
    simp [hne, lookupQ_head]
  · intro mn mx hnull hmin hmax hmn hmx hne
    have hpt : priceTargetOf prefsD (pyOrZ listing.listPriceCents listing.marketEstimateCents)
        = .ok (some ((mn + mx) / 2)) := by
      unfold priceTargetOf
      rw [hnull]
      unfold priceTargetElse
      rw [hmin, hmax]
      rw [if_pos (by simp [PyVal.truthy, hmn, hmx])]
      simp [PyVal.asNum, bind, Except.bind]
    simp only [vectorFromListing, Option.getD_some, bind, Except.bind, hpt,
      Except.ok.injEq] at h
    subst h
    simp [hne, lookupQ_head]
  · intro pc hnull hmax hpc hne
    have hpt : priceTargetOf prefsD (pyOrZ listing.listPriceCents listing.marketEstimateCents)
        = .ok (some ((pc : ℚ) / 100)) := by
      unfold priceTargetOf
      rw [hnull]
      unfold priceTargetElse
      rw [if_neg (by simp [hmax])]
      rw [hpc]
      rw [if_pos (by simp [truthyZ, hne])]
      simp
    have hq : ((pc : ℚ)) / 100 ≠ 0 := by
      have : ((pc : ℚ)) ≠ 0 := Int.cast_ne_zero.mpr hne
      positivity
    simp only [vectorFromListing, Option.getD_some, bind, Except.bind, hpt,
      Except.ok.injEq] at h
    subst h
    simp [hq, lookupQ_head]

/-- Explicit price-band preferences for the C4 witness. -/
def c4prefs : List (String × PyVal) := [("price", .arr [.num 100, .num 300])]

/-- The feature vector of `c4listing` under the band preferences. -/
def c4fv : FeatureVector :=
  (vectorFromListing 2026 c4listing (some c4prefs)).toOption.getD ⟨[], []⟩

/-- Witness for the amended C4: the price feature is the band midpoint
200, the center itself. -/
theorem price_feature_is_center_witness : lookupQ c4fv.numeric "price" = some 200 := by
  have h := (price_feature_is_center 2026 c4listing c4prefs c4fv (by decide)).1
    100 300 (by decide) (by decide)
  simpa using h

/-- A listing built in 2024: new construction in 2026, not in 2030. -/
def c6listing : Listing := { blankListing with id := "l6", yearBuilt := some 2024 }

/-- C6, counterexample: `vector_from_listing` reads the current UTC
year from the system clock, so the same listing and preferences give
different vectors under different clock years — it is not a pure
function of its arguments alone. -/
theorem vectorize_clock_dependence_counterexample :
    vectorFromListing 2026 c6listing none ≠ vectorFromListing 2030 c6listing none := by
  decide

/-- C6 as amended: `vector_from_listing` has no side effects and is a
deterministic function of the listing's attribute fields, the explicit
preferences, and the clock year alone — it ignores every other listing
field (identity, prices other than list/market-estimate, coordinates,
condition notes, timestamps), so two listings agreeing on the read
attributes vectorize identically under the same clock year. -/
theorem vectorize_depends_only_on_attrs_and_year (y : ℤ) (l : Listing)
    (p : Option (List (String × PyVal))) (i : String) (cp : Option ℤ)
    (cn : List (String × PyVal)) (la lo : Option ℚ) (om su ua : Option ℤ) :
    vectorFromListing y
      { l with
        id := i
        closePriceCents := cp
        conditionNotes := cn
        latitude := la
        longitude := lo
        offMarketAt := om
        sourceUpdatedAt := su
        updatedAt := ua } p
      = vectorFromListing y l p := rfl

lemma le_fdiv_86400 {d n : ℤ} (h : d * 86400 < n) : d ≤ Int.fdiv n 86400 := by
  rw [Int.fdiv_eq_ediv _ (by norm_num)]
  rw [Int.le_ediv_iff_mul_le (by norm_num)]
  omega

lemma decayFactor_le {S : Settings} (hS : 1 ≤ S.preferenceDecayDays) {dd : ℤ}
    (hdd : S.preferenceDecayDays ≤ dd) : decayFactor S dd ≤ 3/4 := by
  have hd0 : (0 : ℚ) < (S.preferenceDecayDays : ℚ) := by exact_mod_cast hS
  have hdq : (S.preferenceDecayDays : ℚ) ≤ (dd : ℚ) := by exact_mod_cast hdd
  have h4 : (0 : ℚ) < (S.preferenceDecayDays : ℚ) * 4 := by positivity
  refine max_le (by norm_num) ?_
  have hq : (1 : ℚ)/4 ≤ (dd : ℚ) / ((S.preferenceDecayDays : ℚ) * 4) := by
    rw [le_div_iff₀ h4]
    linarith
  linarith

/-- C7: decay is a no-op while the elapsed time is within the decay
window; past it, every weight is scaled by
`max(0.2, 1 − elapsed_days / (decay_window_days × 4))`, a factor in
`[0.2, 0.75]`, so no weight magnitude grows, nonzero weights strictly
shrink, and at least the 0.2 fraction is retained. -/
theorem decay_noop_or_shrinks (S : Settings) (hS : 1 ≤ S.preferenceDecayDays)
    (now : ℤ) (p : PreferenceVector) :
    (now - p.updatedAt ≤ S.preferenceDecayDays * 86400 → decayPreferences S now p = p)
    ∧ (S.preferenceDecayDays * 86400 < now - p.updatedAt →
        (decayPreferences S now p).numeric
            = p.numeric.map (fun kv =>
                (kv.1, kv.2 * decayFactor S (Int.fdiv (now - p.updatedAt) 86400)))
        ∧ (decayPreferences S now p).tags
            = p.tags.map (fun kv =>
                (kv.1, kv.2 * decayFactor S (Int.fdiv (now - p.updatedAt) 86400)))
        ∧ (decayPreferences S now p).updatedAt = now
        ∧ 1/5 ≤ decayFactor S (Int.fdiv (now - p.updatedAt) 86400)
        ∧ decayFactor S (Int.fdiv (now - p.updatedAt) 86400) ≤ 3/4
        ∧ ∀ w : ℚ,
            |w * decayFactor S (Int.fdiv (now - p.updatedAt) 86400)| ≤ |w|
            ∧ (w ≠ 0 →
              |w * decayFactor S (Int.fdiv (now - p.updatedAt) 86400)| < |w|)) := by
  constructor
  · intro hle
    unfold decayPreferences
    rw [if_pos hle]
  · intro hgt
    have hdd : S.preferenceDecayDays ≤ Int.fdiv (now - p.updatedAt) 86400 :=
      le_fdiv_86400 hgt
    have hf1 : (1 : ℚ)/5 ≤ decayFactor S (Int.fdiv (now - p.updatedAt) 86400) :=
      le_max_left _ _
    have hf2 := decayFactor_le hS hdd
    have hshape : decayPreferences S now p =
        { numeric := p.numeric.map (fun kv =>
            (kv.1, kv.2 * decayFactor S (Int.fdiv (now - p.updatedAt) 86400)))
          tags := p.tags.map (fun kv =>
            (kv.1, kv.2 * decayFactor S (Int.fdiv (now - p.updatedAt) 86400)))
          updatedAt := now } := by
      unfold decayPreferences
      rw [if_neg (not_le.mpr hgt)]
    refine ⟨by rw [hshape], by rw [hshape], by rw [hshape], hf1, hf2, ?_⟩
    intro w
    set f := decayFactor S (Int.fdiv (now - p.updatedAt) 86400) with hf
    have hf0 : 0 ≤ f := le_trans (by norm_num) hf1
    have habs : |w * f| = |w| * f := by
      rw [abs_mul, abs_of_nonneg hf0]
    constructor
    · rw [habs]
      calc |w| * f ≤ |w| * 1 :=
            mul_le_mul_of_nonneg_left (le_trans hf2 (by norm_num)) (abs_nonneg w)
      _ = |w| := mul_one _
    · intro hw
      rw [habs]
      have hwpos : 0 < |w| := abs_pos.mpr hw
      calc |w| * f ≤ |w| * (3/4) := mul_le_mul_of_nonneg_left hf2 (abs_nonneg w)
      _ < |w| * 1 := by
            exact mul_lt_mul_of_pos_left (by norm_num) hwpos
      _ = |w| := mul_one _

/-- A one-weight preference vector last updated at time 0. -/
def p7 : PreferenceVector := { numeric := [("beds", 2)], tags := [], updatedAt := 0 }

/-- Witness for C7: within the window (100 seconds) decay is the
identity; 90 days and a second past it the single weight halves. -/
theorem decay_noop_or_shrinks_witness :
    decayPreferences defaultSettings 100 p7 = p7
    ∧ (decayPreferences defaultSettings 7776001 p7).numeric = [("beds", (1 : ℚ))] := by
  refine ⟨(decay_noop_or_shrinks defaultSettings (by decide) 100 p7).1 (by decide), ?_⟩
  have h := (decay_noop_or_shrinks defaultSettings (by decide) 7776001 p7).2 (by decide)
  rw [h.1]
  decide

lemma lookupQ_cons (k : String) (v : ℚ) (rest : List (String × ℚ)) (a : String) :
    lookupQ ((k, v) :: rest) a = if k = a then some v else lookupQ rest a := by
  unfold lookupQ
  rw [List.find?_cons]
  by_cases h : k = a
  · simp [h]
  · simp [h]

lemma lookupQ_updAssoc (m : List (String × ℚ)) (k : String) (v : ℚ) (a : String) :
    lookupQ (updAssoc m k v) a = if k = a then some v else lookupQ m a := by
  induction m with
  | nil =>
      by_cases h : k = a <;> simp [updAssoc, lookupQ_cons, h, lookupQ]
  | cons hd tl ih =>
      obtain ⟨hk, hv⟩ := hd
      simp only [updAssoc]
      by_cases h1 : hk = k
      · subst h1
        rw [if_pos rfl, lookupQ_cons, lookupQ_cons]
        by_cases h2 : hk = a <;> simp [h2]
      · rw [if_neg h1, lookupQ_cons, lookupQ_cons, ih]
        by_cases h2 : hk = a
        · have hka : ¬ k = a := fun hcon => h1 (h2.trans hcon.symm)
          simp [h2, hka]
        · simp [h2]

lemma feedbackPass_lookup_not_mem (lr s : ℚ) (vec : List (String × ℚ))
    (m : List (String × ℚ)) (a : String) (ha : a ∉ vec.map Prod.fst) :
    lookupQ (feedbackPass lr s vec m) a = lookupQ m a := by
  induction vec generalizing m with
  | nil => rfl
  | cons kv rest ih =>
      have ha1 : a ≠ kv.1 := by
        simp only [List.map_cons, List.mem_cons] at ha
        exact fun hcon => ha (Or.inl hcon)
      have ha2 : a ∉ rest.map Prod.fst := by
        simp only [List.map_cons, List.mem_cons] at ha
        exact fun hcon => ha (Or.inr hcon)
      show lookupQ (feedbackPass lr s rest
        (updAssoc m kv.1 ((lookupQ m kv.1).getD 0 + lr * s * kv.2))) a = lookupQ m a
      rw [ih _ ha2, lookupQ_updAssoc,
        if_neg (fun hcon => ha1 hcon.symm)]

lemma feedbackPass_lookup_mem (lr s : ℚ) (vec : List (String × ℚ))
    (m : List (String × ℚ)) (k : String) (v : ℚ)
    (hnd : (vec.map Prod.fst).Nodup) (hkv : (k, v) ∈ vec) :
    lookupQ (feedbackPass lr s vec m) k
      = some ((lookupQ m k).getD 0 + lr * s * v) := by
  induction vec generalizing m with
  | nil => simp at hkv
  | cons hd rest ih =>
      have hnd1 : hd.1 ∉ rest.map Prod.fst := by
        simp only [List.map_cons, List.nodup_cons] at hnd
        exact hnd.1
      have hnd2 : (rest.map Prod.fst).Nodup := by
        simp only [List.map_cons, List.nodup_cons] at hnd
        exact hnd.2
      rcases List.mem_cons.mp hkv with heq | hmem
      · have hk1 : hd.1 = k := by rw [← heq]
        have hv1 : hd.2 = v := by rw [← heq]
        have hknotin : k ∉ rest.map Prod.fst := hk1 ▸ hnd1
        show lookupQ (feedbackPass lr s rest
          (updAssoc m hd.1 ((lookupQ m hd.1).getD 0 + lr * s * hd.2))) k = _
        rw [feedbackPass_lookup_not_mem lr s rest _ k hknotin, lookupQ_updAssoc,
          hk1, hv1]
        simp
      · have hne : hd.1 ≠ k := by
          intro hcon
          exact hnd1 (hcon ▸ (List.mem_map.mpr ⟨(k, v), hmem, rfl⟩))
        show lookupQ (feedbackPass lr s rest
          (updAssoc m hd.1 ((lookupQ m hd.1).getD 0 + lr * s * hd.2))) k = _
        rw [ih _ hnd2 hmem, lookupQ_updAssoc, if_neg hne]

/-- A one-feature vector for the C9 counterexample. -/
def v9 : FeatureVector := { numeric := [("beds", 3)], tags := [] }

/-- C9, counterexample: `apply_feedback` and an out-of-window
`decay_preferences` return a value different from the argument — and
since the Python functions update the argument object in place and
return it, the caller's `PreferenceVector` is not left unchanged. -/
theorem preference_input_not_unchanged_counterexample :
    applyFeedback defaultSettings 5 p7 v9 1 none ≠ p7
    ∧ decayPreferences defaultSettings 7776001 p7 ≠ p7 := by decide

/-- C9 as amended: `apply_feedback` and `decay_preferences` mutate the
caller's `PreferenceVector` in place and return that same object.  The
post-state of the argument is the returned value: `updated_at` becomes
now, each key of the feature vector gains `lr × signal × value`, and
every other key keeps its weight (decay inside the window returns the
argument unchanged, by `decay_noop_or_shrinks`). -/
theorem apply_feedback_updates_input_in_place (S : Settings) (now : ℤ)
    (prefs : PreferenceVector) (vec : FeatureVector) (signal : ℚ)
    (learningRate : Option ℚ)
    (hnd : (vec.numeric.map Prod.fst).Nodup)
    (hnt : (vec.tags.map Prod.fst).Nodup) :
    ((applyFeedback S now prefs vec signal learningRate).updatedAt = now)
    ∧ (∀ k v, (k, v) ∈ vec.numeric →
        lookupQ (applyFeedback S now prefs vec signal learningRate).numeric k
          = some ((lookupQ prefs.numeric k).getD 0 + resolveLr S learningRate * signal * v))
    ∧ (∀ a, a ∉ vec.numeric.map Prod.fst →
        lookupQ (applyFeedback S now prefs vec signal learningRate).numeric a
          = lookupQ prefs.numeric a)
    ∧ (∀ k v, (k, v) ∈ vec.tags →
        lookupQ (applyFeedback S now prefs vec signal learningRate).tags k
          = some ((lookupQ prefs.tags k).getD 0 + resolveLr S learningRate * signal * v))
    ∧ (∀ a, a ∉ vec.tags.map Prod.fst →
        lookupQ (applyFeedback S now prefs vec signal learningRate).tags a
          = lookupQ prefs.tags a) := by
  refine ⟨rfl, ?_, ?_, ?_, ?_⟩
  · intro k v hkv
    exact feedbackPass_lookup_mem _ _ _ _ k v hnd hkv
  · intro a ha
    exact feedbackPass_lookup_not_mem _ _ _ _ a ha
  · intro k v hkv
    exact feedbackPass_lookup_mem _ _ _ _ k v hnt hkv
  · intro a ha
    exact feedbackPass_lookup_not_mem _ _ _ _ a ha

/-- Witness for the amended C9: the mutated weight is
`2 + 0.25 × 1 × 3 = 2.75`. -/
theorem apply_feedback_updates_input_in_place_witness :
    lookupQ (applyFeedback defaultSettings 5 p7 v9 1 none).numeric "beds"
      = some (11/4) := by
  have h := (apply_feedback_updates_input_in_place defaultSettings 5 p7 v9 1 none
    (by decide) (by decide)).2.1 "beds" 3 (by decide)
  rw [h]
  decide

lemma isOk_bind {ε α β : Type _} (x : Except ε α) (f : α → Except ε β) :
    (x >>= f).isOk = match x with | .error _ => false | .ok a => (f a).isOk := by
  cases x <;> rfl

/-- The timestamp shapes `from_client` survives: a falsy value (the
`if ts:` guard) or a string (whose parse failure is caught). -/
def tsHandled (ts : PyVal) : Bool :=
  !ts.truthy || (match ts with | .str _ => true | _ => false)

/-- The persisted preference states `from_client` handles without
raising: falsy state, or a dict whose `updated_at` is absent, falsy or
a string and whose `numeric`/`tags` entries convert with `dict(...)`. -/
def preferenceStateHandled (pv : PyVal) : Bool :=
  !pv.truthy ||
    (match pv with
     | .obj fields =>
        tsHandled (dictGet fields "updated_at")
          && (pyDict (dictGetD fields "numeric" (.obj []))).isOk
          && (pyDict (dictGetD fields "tags" (.obj []))).isOk
     | _ => false)

lemma fromClient_falsy (parse : String → Option ℤ) (now : ℤ) (pv : PyVal)
    (hpv : pv.truthy = false) :
    fromClient parse now pv = .ok { numeric := [], tags := [], updatedAt := now } := by
  simp only [fromClient, hpv, Bool.false_eq_true, if_false]
  rfl

/-- C8, counterexample: a truthy non-dict persisted state (here the
string "oops") makes `from_client` hit `raw.get(...)` and raise
`AttributeError` — refuting the claim that it never raises for
malformed state of any shape. -/
theorem from_client_raises_counterexample :
    fromClient (fun _ => none) 0 (.str "oops") = .error .attributeError := by decide

/-- C8 as amended: `from_client` returns without raising exactly on
the handled shapes — falsy state (yielding empty maps with
`updated_at = now`), or a dict whose `updated_at` is absent/falsy or a
string and whose `numeric`/`tags` values `dict()` can convert (a
mapping, or an iterable of key/value 2-sequences, including shapes
such as `[[1, 2]]` or `["ab"]`); an unparsable timestamp string still
falls back to `now`.  A truthy non-dict state raises
`AttributeError`, a truthy non-string timestamp raises `TypeError`,
and a `numeric`/`tags` value `dict()` cannot convert (a number,
boolean, non-empty string, or list with non-2-sequence elements)
raises from `dict()`. -/
theorem from_client_ok_iff_handled (parse : String → Option ℤ) (now : ℤ)
    (pv : PyVal) :
    ((fromClient parse now pv).isOk = true ↔ preferenceStateHandled pv = true)
    ∧ (pv.truthy = false →
        fromClient parse now pv = .ok { numeric := [], tags := [], updatedAt := now })
    ∧ (∀ fields s, pv = .obj fields → dictGet fields "updated_at" = .str s →
        parse s = none →
        ∀ st, fromClient parse now pv = .ok st → st.updatedAt = now) := by
  refine ⟨?_, fromClient_falsy parse now pv, ?_⟩
  · cases hpv : pv.truthy with
    | false =>
        rw [fromClient_falsy parse now pv hpv]
        unfold preferenceStateHandled
        rw [hpv]
        simp [Except.isOk, Except.toBool]
    | true =>
        cases pv with
        | obj fields =>
            simp only [fromClient, preferenceStateHandled, tsHandled, hpv, if_true]
            simp only [Bool.not_true, Bool.false_or]
            cases hts : (dictGet fields "updated_at").truthy with
            | false =>
                rw [if_neg (by simp [hts])]
                simp only [hts, Bool.not_false, Bool.true_or]
                cases hA : pyDict (dictGetD fields "numeric" (.obj [])) with
                | error e => simp [hA, Except.isOk, Except.toBool, bind, Except.bind]
                | ok n =>
                    cases hB : pyDict (dictGetD fields "tags" (.obj [])) with
                    | error e =>
                        simp [hA, hB, Except.isOk, Except.toBool, bind, Except.bind]
                    | ok t =>
                        simp [hA, hB, Except.isOk, Except.toBool, bind, Except.bind]
            | true =>
                rw [if_pos (by simp [hts])]
                simp only [hts, Bool.not_true, Bool.false_or]
                cases hval : dictGet fields "updated_at" with
                | str s =>
                    cases hA : pyDict (dictGetD fields "numeric" (.obj [])) with
                    | error e =>
                        simp [hA, Except.isOk, Except.toBool, bind, Except.bind]
                    | ok n =>
                        cases hB : pyDict (dictGetD fields "tags" (.obj [])) with
                        | error e =>
                            simp [hA, hB, Except.isOk, Except.toBool, bind, Except.bind]
                        | ok t =>
                            simp [hA, hB, Except.isOk, Except.toBool, bind, Except.bind]
                | null => rw [hval] at hts; simp [PyVal.truthy] at hts
                | bool b =>
                    simp [Except.isOk, Except.toBool, bind, Except.bind]
                | num q =>
                    simp [Except.isOk, Except.toBool, bind, Except.bind]
                | arr l =>
                    simp [Except.isOk, Except.toBool, bind, Except.bind]
                | obj l =>
                    simp [Except.isOk, Except.toBool, bind, Except.bind]
        | null => simp [PyVal.truthy] at hpv
        | bool b =>
            simp only [fromClient, preferenceStateHandled, hpv, if_true]
            simp [Except.isOk, Except.toBool]
        | num q =>
            simp only [fromClient, preferenceStateHandled, hpv, if_true]
            simp [Except.isOk, Except.toBool]
        | str s =>
            simp only [fromClient, preferenceStateHandled, hpv, if_true]
            simp [Except.isOk, Except.toBool]
        | arr l =>
            simp only [fromClient, preferenceStateHandled, hpv, if_true]
            simp [Except.isOk, Except.toBool]
  · intro fields s hfields hts hparse st hok
    subst hfields
    have htruthy : (PyVal.obj fields).truthy = true := by
      cases hfe : fields with
      | nil => rw [hfe] at hts; simp [dictGet] at hts
      | cons hd tl => simp [PyVal.truthy, hfe]
    simp only [fromClient, htruthy, if_true, hts] at hok
    cases hstr : (PyVal.str s).truthy with
    | false =>
        rw [if_neg (by simp [hstr])] at hok
        cases hA : pyDict (dictGetD fields "numeric" (.obj [])) with
        | error e => rw [hA] at hok; simp [bind, Except.bind] at hok
        | ok n =>
            cases hB : pyDict (dictGetD fields "tags" (.obj [])) with
            | error e => rw [hA, hB] at hok; simp [bind, Except.bind] at hok
            | ok t =>
                rw [hA, hB] at hok
                simp only [bind, Except.bind, Except.ok.injEq] at hok
                rw [← hok]
    | true =>
        rw [if_pos (by simp [hstr])] at hok
        simp only [hparse, Option.getD_none] at hok
        cases hA : pyDict (dictGetD fields "numeric" (.obj [])) with
        | error e => rw [hA] at hok; simp [bind, Except.bind] at hok
        | ok n =>
            cases hB : pyDict (dictGetD fields "tags" (.obj [])) with
            | error e => rw [hA, hB] at hok; simp [bind, Except.bind] at hok
            | ok t =>
                rw [hA, hB] at hok
                simp only [bind, Except.bind, Except.ok.injEq] at hok
                rw [← hok]

/-- A persisted state with a weight map and a malformed timestamp. -/
def pv8fields : List (String × PyVal) :=
  [("numeric", .obj [("beds", .num 2)]), ("updated_at", .str "bad-ts")]

/-- The parsed preference state of `pv8fields` under a failing parser. -/
def st8 : PreferenceVectorRaw :=
  (fromClient (fun _ => none) 0 (.obj pv8fields)).toOption.getD
    { numeric := [], tags := [], updatedAt := 99 }

/-- A persisted state whose `numeric` is a pair list rather than a
mapping: Python `dict([[1, 2]])` converts it, so `from_client` returns
normally. -/
def pv8pairs : PyVal :=
  .obj [("numeric", .arr [.arr [.num 1, .num 2]]), ("tags", .obj [])]

/-- Witness for the amended C8: a dict state with a malformed timestamp
string parses without raising and falls back to `updated_at = now`, and
a pair-list `numeric` (which `dict()` accepts) is also handled. -/
theorem from_client_ok_iff_handled_witness :
    (fromClient (fun _ => none) 0 (.obj pv8fields)).isOk = true
    ∧ st8.updatedAt = 0
    ∧ (fromClient (fun _ => none) 0 pv8pairs).isOk = true :=
  ⟨(from_client_ok_iff_handled (fun _ => none) 0 (.obj pv8fields)).1.mpr (by decide),
   (from_client_ok_iff_handled (fun _ => none) 0 (.obj pv8fields)).2.2 pv8fields
     "bad-ts" rfl (by decide) rfl st8 (by decide),
   (from_client_ok_iff_handled (fun _ => none) 0 pv8pairs).1.mpr (by decide)⟩

/-- C10: `_haversine` reports the distance as undefined whenever any of
the four coordinates is missing or exactly 0 (falsy), and the selection
loop keeps only candidates whose distance is defined — so a candidate
(or subject) with a zero coordinate is treated exactly like one with no
coordinates and is excluded from the comparable set. -/
theorem zero_or_missing_coords_excluded (core : ℚ → ℚ → ℚ → ℚ → ℚ) (S : Settings)
    (nowUtc : ℤ) (subject : Listing) (candidates : List Listing) :
    (∀ la lo la2 lo2 : Option ℚ,
      (la = none ∨ la = some 0 ∨ lo = none ∨ lo = some 0
        ∨ la2 = none ∨ la2 = some 0 ∨ lo2 = none ∨ lo2 = some 0) →
      haversine core la lo la2 lo2 = none)
    ∧ (∀ x ∈ selectComparables core S nowUtc subject candidates,
        truthyQ subject.latitude = true ∧ truthyQ subject.longitude = true
        ∧ truthyQ x.1.latitude = true ∧ truthyQ x.1.longitude = true)
    ∧ (∀ l ∈ candidates,
        (l.latitude = none ∨ l.latitude = some 0
          ∨ l.longitude = none ∨ l.longitude = some 0) →
        ∀ d db, (l, d, db) ∉ selectComparables core S nowUtc subject candidates) := by
  have h2 : ∀ x ∈ selectComparables core S nowUtc subject candidates,
      truthyQ subject.latitude = true ∧ truthyQ subject.longitude = true
      ∧ truthyQ x.1.latitude = true ∧ truthyQ x.1.longitude = true := by
    intro x hx
    rcases List.mem_filterMap.mp hx with ⟨l, _, hfm⟩
    rcases hcond : (truthyQ subject.latitude && truthyQ subject.longitude
        && truthyQ l.latitude && truthyQ l.longitude) with htf | htf
    · rw [show haversine core subject.latitude subject.longitude l.latitude l.longitude
          = none from by unfold haversine; rw [show (truthyQ subject.latitude
            && truthyQ subject.longitude && truthyQ l.latitude && truthyQ l.longitude)
            = false from hcond]; rfl] at hfm
      simp at hfm
    · have hall := hcond
      simp only [Bool.and_eq_true] at hall
      have hx1 : x.1 = l := by
        rw [show haversine core subject.latitude subject.longitude l.latitude l.longitude
            = some (core (subject.latitude.getD 0) (subject.longitude.getD 0)
              (l.latitude.getD 0) (l.longitude.getD 0)) from by
          unfold haversine
          rw [show (truthyQ subject.latitude && truthyQ subject.longitude
            && truthyQ l.latitude && truthyQ l.longitude) = true from hcond]
          rfl] at hfm
        split at hfm
        · simp at hfm
        · split at hfm
          · simp at hfm
          · simp only [Option.some.injEq] at hfm
            rw [← hfm]
      rw [hx1]
      exact ⟨hall.1.1.1, hall.1.1.2, hall.1.2, hall.2⟩
  refine ⟨?_, h2, ?_⟩
  · intro la lo la2 lo2 hbad
    unfold haversine
    rcases hbad with h | h | h | h | h | h | h | h <;> simp [h, truthyQ]
  · intro l _ hbad d db hmem
    have := h2 (l, d, db) hmem
    rcases hbad with h | h | h | h <;> rw [h] at this <;> simp [truthyQ] at this

/-- A candidate listing at latitude 0: treated as having no
coordinates. -/
def c10bad : Listing :=
  { blankListing with id := "b10", latitude := some 0, longitude := some 5 }

/-- A subject with usable coordinates. -/
def c10subj : Listing :=
  { blankListing with id := "s10", latitude := some 1, longitude := some 1 }

/-- Witness for C10: a zero latitude gives an undefined distance, and
the listing at latitude 0 never appears in the selected comparables. -/
theorem zero_or_missing_coords_excluded_witness :
    haversine (fun _ _ _ _ => 0) (some 0) (some 1) (some 1) (some 1) = none
    ∧ ((c10bad, (0 : ℚ), (0 : ℤ)) ∉ selectComparables (fun _ _ _ _ => 0)
        defaultSettings 0 c10subj [c10bad]) :=
  ⟨(zero_or_missing_coords_excluded (fun _ _ _ _ => 0) defaultSettings 0 c10subj
      [c10bad]).1 (some 0) (some 1) (some 1) (some 1) (Or.inr (Or.inl rfl)),
   (zero_or_missing_coords_excluded (fun _ _ _ _ => 0) defaultSettings 0 c10subj
      [c10bad]).2.2 c10bad (by decide) (Or.inr (Or.inl rfl)) 0 0⟩

end RealtorAssistant
